import Mathlib

/-!
Verification of the DGL karate-club tutorial notebooks.

The repository consists of two Jupyter notebooks:
* `1_Basics.ipynb` builds the Zachary karate club graph in DGL, then
  manipulates node and edge feature tensors;
* the second notebook implements a graph convolutional network (GCN)
  layer via the DGL send/recv message-passing interface, a two-layer
  model `Net`, and a 30-epoch training loop.

This file shallowly embeds the notebook code.  The DGL graph is a node
count plus a directed edge list (edge ids are positions in that list);
node-feature dictionaries map string keys to optional columns of rows;
feature rows are functions from coordinate indices to scalars.  The
message and reduce functions and the degree normalizer are blank
fill-in exercises in the notebooks, so they are modelled from the
equations stated in the spec and in the notebook text itself; every
such definition is marked `Modelled from the spec:` in its doc string.
-/

namespace KarateTutorial

/-- a DGL graph: nodes are the integers below `num_nodes`, edges are a
list of (source, destination) pairs; the edge id of an edge is its
position in `edge_list`. -/
structure DGLGraph where
  num_nodes : ℕ
  edge_list : List (ℕ × ℕ)
  deriving DecidableEq

def DGLGraph.empty : DGLGraph := ⟨0, []⟩

def DGLGraph.number_of_nodes (g : DGLGraph) : ℕ := g.num_nodes

def DGLGraph.number_of_edges (g : DGLGraph) : ℕ := g.edge_list.length

/-- `G.add_nodes(k)` appends `k` fresh nodes. -/
def DGLGraph.add_nodes (g : DGLGraph) (k : ℕ) : DGLGraph :=
  { g with num_nodes := g.num_nodes + k }

/-- `G.add_edge(u, v)` appends the single directed edge `u -> v`. -/
def DGLGraph.add_edge (g : DGLGraph) (u v : ℕ) : DGLGraph :=
  { g with edge_list := g.edge_list ++ [(u, v)] }

/-- `G.add_edges(src, dst)` appends the directed edges pairing the two
lists positionally (DGL takes a source list and a destination list,
not a list of pairs). -/
def DGLGraph.add_edges (g : DGLGraph) (src dst : List ℕ) : DGLGraph :=
  { g with edge_list := g.edge_list ++ src.zip dst }

/-- `G.predecessors(v)`: sources of the edges whose destination is `v`. -/
def DGLGraph.predecessors (g : DGLGraph) (v : ℕ) : List ℕ :=
  (g.edge_list.filter (fun e => e.2 == v)).map Prod.fst

/-- `G.in_degrees(v)`: the number of edges whose destination is `v`. -/
def DGLGraph.in_degrees (g : DGLGraph) (v : ℕ) : ℕ :=
  (g.edge_list.filter (fun e => e.2 == v)).length

/-! ## The graph built in 1_Basics.ipynb -/

/-- the 67 remaining edge tuples given to the final `G.add_edges` call
in 1_Basics.ipynb. -/
def edge_list67 : List (ℕ × ℕ) :=
  [(7, 0), (7, 1), (7, 2), (7, 3), (8, 0), (8, 2), (9, 2), (10, 0), (10, 4), (10, 5),
   (11, 0), (12, 0), (12, 3), (13, 0), (13, 1), (13, 2), (13, 3), (16, 5), (16, 6),
   (17, 0), (17, 1), (19, 0), (19, 1), (21, 0), (21, 1), (25, 23), (25, 24), (27, 2),
   (27, 23), (27, 24), (28, 2), (29, 23), (29, 26), (30, 1), (30, 8), (31, 0), (31, 24),
   (31, 25), (31, 28), (32, 2), (32, 8), (32, 14), (32, 15), (32, 18), (32, 20), (32, 22),
   (32, 23), (32, 29), (32, 30), (32, 31), (33, 8), (33, 9), (33, 13), (33, 14), (33, 15),
   (33, 18), (33, 19), (33, 20), (33, 22), (33, 23), (33, 26), (33, 27), (33, 28),
   (33, 29), (33, 30), (33, 31), (33, 32)]

/-- the (source list, destination list) arguments of the `add_edges`
calls made between the single `add_edge(1, 0)` call and the final
`add_edges` over `edge_list67`: `G.add_edges([2, 2], [0, 1])`,
`G.add_edges(torch.tensor([3, 3, 3]), torch.tensor([0, 1, 2]))`,
`G.add_edges([4, 5], 0)` (the scalar 0 broadcasts over both sources)
and `G.add_edges(6, torch.tensor([0, 4, 5]))` (the scalar 6 broadcasts
over all three destinations). -/
def intermediate_add_edges_calls : List (List ℕ × List ℕ) :=
  [([2, 2], [0, 1]), ([3, 3, 3], [0, 1, 2]),
   ([4, 5], List.replicate 2 0), (List.replicate 3 6, [0, 4, 5])]

/-- the graph after `G = dgl.DGLGraph(); G.add_nodes(34); G.add_edge(1, 0)`. -/
def graph_after_add_edge : DGLGraph :=
  (DGLGraph.empty.add_nodes 34).add_edge 1 0

/-- the graph after the four intermediate `add_edges` calls (end of the
cell printing "Now we have 11 edges!"). -/
def graph_after_intermediate : DGLGraph :=
  intermediate_add_edges_calls.foldl
    (fun g c => g.add_edges c.1 c.2) graph_after_add_edge

/-- the finished karate club graph, after the exercise cell adds the
67 remaining edges of `edge_list67`. -/
def karateG : DGLGraph :=
  graph_after_intermediate.add_edges
    (edge_list67.map Prod.fst) (edge_list67.map Prod.snd)

/-! ## Feature dictionaries and the send/recv interface -/

/-- a feature row: coordinate index to scalar.  Tensor widths are left
implicit (coordinates beyond the width are simply unused). -/
abbrev Row (K : Type) : Type := ℕ → K

/-- a node-feature dictionary `g.ndata`: a string key maps to an
optional column, a column being one feature row per node. -/
abbrev NData (K : Type) : Type := String → Option (ℕ → Row K)

/-- `g.ndata[key] = col`: write (or overwrite) one key. -/
def NData.set {K : Type} (nd : NData K) (key : String) (col : ℕ → Row K) :
    NData K :=
  fun k => if k = key then some col else nd k

/-- `g.ndata.pop(key)`: return the stored column and the dictionary
with the key removed. -/
def NData.pop {K : Type} (nd : NData K) (key : String) :
    Option (ℕ → Row K) × NData K :=
  (nd key, fun k => if k = key then none else nd k)

/-- the view a DGL edge UDF gets of one edge: the feature dictionaries
of its source and destination nodes. -/
structure EdgeView (K : Type) where
  src : String → Option (Row K)
  dst : String → Option (Row K)

variable {K : Type} [LinearOrderedField K]

/-- `g.send(g.edges(), msg)`: run the message UDF on every edge, in
edge order, producing the destination node and message of each edge. -/
def DGLGraph.send (g : DGLGraph) (nd : NData K)
    (msg : ℕ × ℕ → EdgeView K → Option (Row K)) :
    List (ℕ × Option (Row K)) :=
  g.edge_list.map (fun e =>
    (e.2, msg e { src := fun k => (nd k).map (fun f => f e.1),
                  dst := fun k => (nd k).map (fun f => f e.2) }))

/-- Modelled from the spec: the message UDF `gcn_message` is a blank
exercise (`pass`) in the notebook; the notebook text and spec require
it to return the source node feature stored under the key "h" as the
message, `m_uv = h_u`. -/
def gcn_message (_e : ℕ × ℕ) (ev : EdgeView K) : Option (Row K) :=
  ev.src "h"

/-- Modelled from the spec: the reduce UDF `gcn_reduce` is a blank
exercise (`pass`) in the notebook; the notebook text and spec require
it to sum the messages delivered into the mailbox of each node,
returning the sum under the key "h". -/
def gcn_reduce (mailbox : List (Row K)) : Row K :=
  mailbox.sum

/-- `g.recv(g.nodes(), red)`: for every node, collect the messages
addressed to it (its mailbox, in edge order) and store the reduced
value under the key "h" (the key the reduce UDF returns). -/
def DGLGraph.recv (_g : DGLGraph) (msgs : List (ℕ × Option (Row K)))
    (red : List (Row K) → Row K) (nd : NData K) : NData K :=
  NData.set nd "h"
    (fun v => red ((msgs.filter (fun p => p.1 == v)).map
      (fun p => p.2.getD 0)))

/-! ## The GCN layer and the two-layer Net -/

/-- `nn.Linear(in_feats, out_feats)`: weight matrix and bias with the
PyTorch convention `y = x Wᵀ + b`. -/
structure LinearModule (K : Type) where
  in_feats : ℕ
  weight : ℕ → ℕ → K
  bias : Row K

/-- apply an `nn.Linear` module to one row. -/
def LinearModule.apply (m : LinearModule K) (x : Row K) : Row K :=
  fun i => (∑ j ∈ Finset.range m.in_feats, m.weight i j * x j) + m.bias i

/-- the GCN module of the notebook: it owns a single `nn.Linear`. -/
structure GCN (K : Type) where
  linear : LinearModule K

/-- `GCN.forward(g, inputs)`, exactly as in the notebook: first
`h = self.linear(inputs)`; then `g.ndata["h"] = h`; then
`g.send(g.edges(), gcn_message)`; then `g.recv(g.nodes(), gcn_reduce)`;
finally `h = g.ndata.pop("h")` is returned.  The result is the output
matrix together with the node-feature dictionary the call leaves on
the graph. -/
def GCN.forward (layer : GCN K) (g : DGLGraph) (nd : NData K)
    (inputs : ℕ → Row K) : (ℕ → Row K) × NData K :=
  let h := fun v => layer.linear.apply (inputs v)
  let nd1 := NData.set nd "h" h
  let msgs := g.send nd1 gcn_message
  let nd2 := g.recv msgs gcn_reduce nd1
  let popped := NData.pop nd2 "h"
  (popped.1.getD (fun _ => 0), popped.2)

/-- `torch.relu` on one row: elementwise max with 0. -/
def relu (x : Row K) : Row K :=
  fun i => max (x i) 0

/-- the two-layer model of the notebook: `self.gcn1` and `self.gcn2`. -/
structure Net (K : Type) where
  gcn1 : GCN K
  gcn2 : GCN K

/-- `Net.forward(g, inputs)`, exactly as in the notebook:
`h = self.gcn1(g, inputs); h = torch.relu(h); h = self.gcn2(g, h)`. -/
def Net.forward (net : Net K) (g : DGLGraph) (nd : NData K)
    (inputs : ℕ → Row K) : (ℕ → Row K) × NData K :=
  let r1 := net.gcn1.forward g nd inputs
  let h1 := fun v => relu (r1.1 v)
  net.gcn2.forward g r1.2 h1

/-! ## The degree-normalized layer (exercise at the end of the notebook) -/

/-- Modelled from the spec: the normalizer exercise cell is empty in
the notebook; the spec and the exercise prompt require the message
sent along each edge (i, j) to be divided by the normalization factor
`c_ij = sqrt(d_i * d_j)` where the degrees are node in-degrees
(`GG.in_degrees`), the message function being an edge UDF. -/
noncomputable def gcn_message_norm (g : DGLGraph) (e : ℕ × ℕ)
    (ev : EdgeView ℝ) : Option (Row ℝ) :=
  (ev.src "h").map (fun h i =>
    h i / Real.sqrt ((g.in_degrees e.1 : ℝ) * (g.in_degrees e.2 : ℝ)))

/-- Modelled from the spec: the GCN forward pass with the normalizer
exercise filled in: identical to `GCN.forward` except that the message
UDF is `gcn_message_norm`. -/
noncomputable def GCNNorm.forward (layer : GCN ℝ) (g : DGLGraph)
    (nd : NData ℝ) (inputs : ℕ → Row ℝ) : (ℕ → Row ℝ) × NData ℝ :=
  let h := fun v => layer.linear.apply (inputs v)
  let nd1 := NData.set nd "h" h
  let msgs := g.send nd1 (gcn_message_norm g)
  let nd2 := g.recv msgs gcn_reduce nd1
  let popped := NData.pop nd2 "h"
  (popped.1.getD (fun _ => 0), popped.2)

/-! ## The semi-supervised training setup of the GCN notebook -/

/-- the optimizers of `torch.optim` the notebooks could have chosen. -/
inductive Optimizer where
  | SGD
  | Adam
  deriving DecidableEq

/-- the optimizer the notebook constructs:
`torch.optim.Adam(net.parameters(), lr=0.01)`. -/
def training_optimizer : Optimizer := Optimizer.Adam

/-- the learning rate passed to the optimizer. -/
def learning_rate : ℚ := 1 / 100

/-- `labeled_nodes = torch.tensor([0, 33])`: only the instructor and
the club president are labeled. -/
def labeled_nodes : List ℕ := [0, 33]

/-- `labels = torch.tensor([0, 1])`. -/
def labels : List ℕ := [0, 1]

/-- `F.log_softmax(logits, 1)` over `c` classes, row by row. -/
noncomputable def log_softmax (c : ℕ) (logits : ℕ → Row ℝ) : ℕ → Row ℝ :=
  fun v i => logits v i - Real.log (∑ j ∈ Finset.range c, Real.exp (logits v j))

/-- `F.nll_loss(logp, target)` with the default mean reduction: the
negated mean of `logp[k][target[k]]` over the selected rows. -/
noncomputable def nll_loss (logp : List (Row ℝ)) (target : List ℕ) : ℝ :=
  -(((logp.zip target).map (fun p => p.1 p.2)).sum) / (logp.length : ℝ)

/-- the loss of one epoch:
`F.nll_loss(F.log_softmax(logits, 1)[labeled_nodes], labels)`. -/
noncomputable def epoch_loss (logits : ℕ → Row ℝ) : ℝ :=
  nll_loss (labeled_nodes.map (log_softmax 2 logits)) labels

/-- the mutable state of the training loop: the network parameters and
the `all_logits` list. -/
structure TrainState (P : Type) where
  params : P
  all_logits : List (ℕ → Row ℝ)

/-- one epoch of the loop: `logits = net(GG, inputs)`;
`all_logits.append(logits.detach())` (detaching does not change the
value); the two-node loss; then `zero_grad`, `backward` and
`optimizer.step()`, which are library calls abstracted as the update
function `opt_step` from current parameters and loss. -/
noncomputable def train_epoch {P : Type} (net_logits : P → ℕ → Row ℝ)
    (opt_step : P → ℝ → P) (s : TrainState P) : TrainState P :=
  let logits := net_logits s.params
  let logp := fun v => log_softmax 2 logits v
  let loss := nll_loss (labeled_nodes.map logp) labels
  { params := opt_step s.params loss
    all_logits := s.all_logits ++ [logits] }

/-- `for epoch in range(n)`: iterate `train_epoch` n times. -/
noncomputable def train_loop {P : Type} (net_logits : P → ℕ → Row ℝ)
    (opt_step : P → ℝ → P) : ℕ → TrainState P → TrainState P
  | 0, s => s
  | n + 1, s => train_loop net_logits opt_step n (train_epoch net_logits opt_step s)

/-- the epoch count of the notebook loop: `range(30)`. -/
def num_epochs : ℕ := 30

/-! ## Feature tensors of 1_Basics.ipynb -/

/-- a two-dimensional feature tensor with an explicit first dimension
(the rows are batched node features). -/
structure Tensor2 (K : Type) where
  rows : ℕ
  cols : ℕ
  entry : ℕ → Row K

/-- `G.ndata[key] = t`, as performed by the DGL `set_n_repr` library
routine: the first dimension of the assigned tensor must equal the
number of nodes of the graph, otherwise a `DGLError` is raised and
nothing is written. -/
def set_ndata_checked (g : DGLGraph) (nd : NData K) (key : String)
    (t : Tensor2 K) : Except String (NData K) :=
  if t.rows = g.number_of_nodes then Except.ok (NData.set nd key t.entry)
  else Except.error "DGLError: Expect number of features to match number of nodes"

/-- write one row of a node-feature column. -/
def writeRow (col : ℕ → Row K) (v : ℕ) (r : Row K) : ℕ → Row K :=
  fun u => if u = v then r else col u

/-- sequential row writes: row `idx[k]` is set to `vals[k]`, one write
after the other (on duplicate indices the later write wins, as in a
torch scatter). -/
def scatter_rows : (ℕ → Row K) → List ℕ → List (Row K) → ℕ → Row K
  | col, [], _ => col
  | col, _ :: _, [] => col
  | col, v :: idx, r :: vals => scatter_rows (writeRow col v r) idx vals

/-- `G.nodes[idx].data[key] = vals`: the partial node-feature
assignment of 1_Basics.ipynb; only the rows listed in `idx` of the
column stored under `key` are rewritten. -/
def set_nodes_data (nd : NData K) (key : String) (idx : List ℕ)
    (vals : List (Row K)) : NData K :=
  fun k =>
    if k = key then some (scatter_rows ((nd key).getD (fun _ _ => 0)) idx vals)
    else nd k

/-- the edge ids selected by `G.edges[srcs, v]`: the positions in the
edge list holding an edge from a member of `srcs` to `v`. -/
def edge_ids_to (g : DGLGraph) (srcs : List ℕ) (v : ℕ) : List ℕ :=
  (List.range g.edge_list.length).filter (fun i =>
    match g.edge_list[i]? with
    | some e => e.2 == v && srcs.contains e.1
    | none => false)

/-- the broness edge feature right after
`G.edata["broness"] = torch.ones((G.number_of_edges(),))`. -/
def broness_init (_g : DGLGraph) : ℕ → ℚ := fun _ => 1

/-- the broness edge feature after
`G.edges[G.predecessors(0), 0].data["broness"] *= 0.5`. -/
def broness_after (g : DGLGraph) : ℕ → ℚ :=
  fun i =>
    if i ∈ edge_ids_to g (g.predecessors 0) 0
    then broness_init g i * (1 / 2) else broness_init g i

/-! ## Concrete sample values used to instantiate theorems -/

/-- a sample GCN layer over the rationals with zero weights. -/
def wit_layer : GCN ℚ := ⟨⟨34, fun _ _ => 0, fun _ => 0⟩⟩

/-- the empty node-feature dictionary over the rationals. -/
def wit_nd : NData ℚ := fun _ => none

/-- a node-feature dictionary holding one all-zero column under the
key "feat". -/
def wit_feat_nd : NData ℚ :=
  fun k => if k = "feat" then some (fun _ _ => 0) else none

/-- two all-one rows, the replacement values of a partial assignment. -/
def wit_vals : List (Row ℚ) := [fun _ => 1, fun _ => 1]

/-- an all-zero logits matrix. -/
noncomputable def wit_logits : ℕ → Row ℝ := fun _ _ => 0

/-- a 35-by-5 all-zero tensor: one row too many for a 34-node graph. -/
def wrong_feat_tensor : Tensor2 ℚ := ⟨35, 5, fun _ _ => 0⟩

/-! ## Closed forms of the forward passes (shared helper lemmas) -/

lemma gcn_forward_closed (layer : GCN K) (g : DGLGraph) (nd : NData K)
    (inputs : ℕ → Row K) :
    (GCN.forward layer g nd inputs).1
      = fun v => ((g.edge_list.filter (fun e => e.2 == v)).map
          (fun e => layer.linear.apply (inputs e.1))).sum := by
  funext v
  simp only [GCN.forward, DGLGraph.send, DGLGraph.recv, NData.set, NData.pop,
    gcn_message, gcn_reduce, if_pos, Option.map_some, Option.getD_some]
  rw [List.filter_map]
  simp [Function.comp_def, List.map_map]

lemma gcn_forward_ndata (layer : GCN K) (g : DGLGraph) (nd : NData K)
    (inputs : ℕ → Row K) :
    (GCN.forward layer g nd inputs).2
      = fun k => if k = "h" then none else nd k := by
  funext k
  by_cases hk : k = "h"
  · simp [GCN.forward, NData.pop, hk]
  · simp [GCN.forward, NData.pop, NData.set, DGLGraph.recv, hk]

lemma gcn_norm_forward_closed (layer : GCN ℝ) (g : DGLGraph)
    (nd : NData ℝ) (inputs : ℕ → Row ℝ) :
    (GCNNorm.forward layer g nd inputs).1
      = fun v => ((g.edge_list.filter (fun e => e.2 == v)).map
          (fun e i => layer.linear.apply (inputs e.1) i /
            Real.sqrt ((g.in_degrees e.1 : ℝ) * (g.in_degrees e.2 : ℝ)))).sum := by
  funext v
  simp only [GCNNorm.forward, DGLGraph.send, DGLGraph.recv, NData.set,
    NData.pop, gcn_message_norm, gcn_reduce, if_pos, Option.map_some,
    Option.getD_some]
  rw [List.filter_map]
  simp [Function.comp_def, List.map_map]

/-! ## Helper lemmas on scatter writes, selected edge ids, the loop -/

omit [LinearOrderedField K] in
lemma scatter_rows_not_mem (col : ℕ → Row K) (idx : List ℕ)
    (vals : List (Row K)) (v : ℕ) (hv : v ∉ idx) :
    scatter_rows col idx vals v = col v := by
  induction idx generalizing col vals with
  | nil => cases vals <;> rfl
  | cons a idx ih =>
    cases vals with
    | nil => rfl
    | cons r vals =>
      have hva : v ≠ a := by
        intro h
        exact hv (h ▸ List.mem_cons_self a idx)
      have hvi : v ∉ idx := fun h => hv (List.mem_cons_of_mem a h)
      rw [scatter_rows, ih _ _ hvi]
      simp [writeRow, hva]

omit [LinearOrderedField K] in
lemma scatter_rows_get (col : ℕ → Row K) (idx : List ℕ)
    (vals : List (Row K)) (hnd : idx.Nodup) (hlen : vals.length = idx.length)
    (p : ℕ) (hp : p < idx.length) :
    scatter_rows col idx vals (idx.get ⟨p, hp⟩)
      = vals.get ⟨p, by omega⟩ := by
  induction idx generalizing col vals p with
  | nil => exact absurd hp (by simp)
  | cons a idx ih =>
    cases vals with
    | nil => exact absurd hlen (by simp)
    | cons r vals =>
      rw [scatter_rows]
      cases p with
      | zero =>
        have ha : a ∉ idx := (List.nodup_cons.mp hnd).1
        simp only [List.get]
        rw [scatter_rows_not_mem _ _ _ _ ha]
        simp [writeRow]
      | succ p =>
        simp only [List.get]
        exact ih _ _ (List.nodup_cons.mp hnd).2 (by simpa using hlen) _ _

lemma train_loop_len {P : Type} (nl : P → ℕ → Row ℝ) (os : P → ℝ → P)
    (n : ℕ) (s : TrainState P) :
    (train_loop nl os n s).all_logits.length = s.all_logits.length + n := by
  induction n generalizing s with
  | zero => rfl
  | succ n ih =>
    rw [train_loop, ih]
    simp [train_epoch]
    omega

lemma src_mem_predecessors (g : DGLGraph) (e : ℕ × ℕ)
    (he : e ∈ g.edge_list) (h2 : e.2 = 0) : e.1 ∈ g.predecessors 0 := by
  simp only [DGLGraph.predecessors, List.mem_map]
  exact ⟨e, List.mem_filter.mpr ⟨he, by simp [h2]⟩, rfl⟩

lemma mem_edge_ids_to_zero (g : DGLGraph) (i : ℕ)
    (h : i < g.edge_list.length) :
    i ∈ edge_ids_to g (g.predecessors 0) 0
      ↔ (g.edge_list.get ⟨i, h⟩).2 = 0 := by
  unfold edge_ids_to
  rw [List.mem_filter]
  simp only [List.mem_range]
  rw [List.getElem?_eq_getElem h]
  constructor
  · rintro ⟨-, hb⟩
    simp only [Bool.and_eq_true, beq_iff_eq] at hb
    exact hb.1
  · intro h2
    refine ⟨h, ?_⟩
    simp only [Bool.and_eq_true, beq_iff_eq]
    refine ⟨h2, ?_⟩
    simpa using src_mem_predecessors g _ (List.get_mem g.edge_list i h) h2

/-! ## The claims -/

/-- Claim C1: the GCN layer is linear-transform-then-neighbor-sum: for
every graph and input feature matrix, `GCN.forward` first computes
`h = linear(inputs)` and then, via send over all edges with
`gcn_message` and recv over all nodes with `gcn_reduce`, returns the
matrix whose row `v` is the sum of `h[u]` over all in-neighbors `u`
of `v` (`gcn_message` being the source "h" feature, `gcn_reduce` the
mailbox sum). -/
theorem gcn_forward_linear_then_neighbor_sum (layer : GCN K)
    (g : DGLGraph) (nd : NData K) (inputs : ℕ → Row K) :
    (GCN.forward layer g nd inputs).1
      = fun v => ((g.predecessors v).map
          (fun u => layer.linear.apply (inputs u))).sum := by
  rw [gcn_forward_closed]
  funext v
  simp [DGLGraph.predecessors, List.map_map, Function.comp_def]

/-- Claim C2: with the normalizer exercise filled in as the spec and
prompt demand, the message sent along each edge (u, v) is the source
"h" feature divided by `c_uv = sqrt(d_u * d_v)` where the degrees are
node in-degrees, so the returned row `v` sums the normalized messages
of its in-edges. -/
theorem gcn_norm_forward_divides_by_sqrt_indegrees (layer : GCN ℝ)
    (g : DGLGraph) (nd : NData ℝ) (inputs : ℕ → Row ℝ) :
    (GCNNorm.forward layer g nd inputs).1
      = fun v => ((g.predecessors v).map (fun u i =>
          layer.linear.apply (inputs u) i /
            Real.sqrt ((g.in_degrees u : ℝ) * (g.in_degrees v : ℝ)))).sum := by
  rw [gcn_norm_forward_closed]
  funext v
  unfold DGLGraph.predecessors
  rw [List.map_map]
  refine congrArg List.sum (List.map_congr_left ?_)
  intro e he
  have h2 : e.2 = v := by simpa using (List.mem_filter.mp he).2
  simp [Function.comp_def, h2]

/-- Claim C3, counterexample: the notebook constructs
`torch.optim.Adam`, not stochastic gradient descent. -/
theorem training_optimizer_is_adam_not_sgd :
    training_optimizer = Optimizer.Adam
    ∧ ¬ (training_optimizer = Optimizer.SGD) :=
  ⟨rfl, by decide⟩

/-- Claim C3 (amended): the training loop optimizes the network
parameters with the Adam optimizer at learning rate 0.01, and the
loss at every epoch is computed only from the two labeled nodes 0 and
33: it is `nll_loss` of the log-softmax logits at rows
`labeled_nodes = [0, 33]` with `labels = [0, 1]`, and it is unchanged
whenever two logits matrices agree on rows 0 and 33. -/
theorem training_loop_adam_and_two_node_loss :
    training_optimizer = Optimizer.Adam
    ∧ learning_rate = 1 / 100
    ∧ (∀ (P : Type) (nl : P → ℕ → Row ℝ) (os : P → ℝ → P)
          (s : TrainState P),
        (train_epoch nl os s).params = os s.params (epoch_loss (nl s.params)))
    ∧ (∀ logits : ℕ → Row ℝ,
        epoch_loss logits
          = -(log_softmax 2 logits 0 0 + log_softmax 2 logits 33 1) / 2)
    ∧ (∀ l1 l2 : ℕ → Row ℝ, l1 0 = l2 0 → l1 33 = l2 33 →
        epoch_loss l1 = epoch_loss l2) := by
  refine ⟨rfl, rfl, fun P nl os s => rfl, fun logits => ?_,
    fun l1 l2 h0 h33 => ?_⟩
  · simp [epoch_loss, nll_loss, labeled_nodes, labels]
  · simp [epoch_loss, nll_loss, labeled_nodes, labels, log_softmax, h0, h33]

/-- Claim C3, witness: the two-node-dependence part of the amended
claim applied at the all-zero logits matrix. -/
theorem training_loop_adam_and_two_node_loss_witness :
    (wit_logits 0 = wit_logits 0) ∧ (wit_logits 33 = wit_logits 33)
    ∧ epoch_loss wit_logits = epoch_loss wit_logits :=
  ⟨rfl, rfl,
    (training_loop_adam_and_two_node_loss).2.2.2.2 wit_logits wit_logits
      rfl rfl⟩

/-- Claim C4, counterexample: between the single `add_edge` call and
the final `add_edges` over the 67 remaining tuples there are four
`add_edges` calls adding ten edges, not three calls adding five, so
the edge count at that point is 11, not 6. -/
theorem four_intermediate_add_edges_calls_not_three :
    intermediate_add_edges_calls.length = 4
    ∧ graph_after_intermediate.number_of_edges = 11
    ∧ ¬ (intermediate_add_edges_calls.length = 3
          ∧ graph_after_intermediate.number_of_edges = 1 + 5) := by
  refine ⟨rfl, by decide, by decide⟩

/-- Claim C4 (amended): the graph-construction notebook builds the
karate club graph with exactly 34 nodes and 78 directed edges: after
`G.add_nodes(34)`, `number_of_nodes()` is 34, and after the single
`add_edge` call (1 edge), the four intermediate `add_edges` calls
(10 more edges), and the final `add_edges` over the 67-tuple
`edge_list`, `number_of_edges()` is 78. -/
theorem karate_graph_node_edge_counts :
    karateG.number_of_nodes = 34
    ∧ karateG.number_of_edges = 78
    ∧ edge_list67.length = 67
    ∧ graph_after_add_edge.number_of_edges = 1
    ∧ graph_after_intermediate.number_of_edges = 11 := by
  refine ⟨by decide, by decide, by decide, by decide, by decide⟩

/-- Claim C5: the model is the two-layer GCN
`Net.forward(g, x) = gcn2(g, relu(gcn1(g, x)))`, each layer going
through the send/recv pipeline, so the output row `v` is the
neighbor-sum of the second linear transform applied to the rectified
first-layer neighbor-sums. -/
theorem net_forward_two_layer_composition (net : Net K) (g : DGLGraph)
    (nd : NData K) (inputs : ℕ → Row K) :
    (Net.forward net g nd inputs).1
      = (net.gcn2.forward g (net.gcn1.forward g nd inputs).2
          (fun v => relu ((net.gcn1.forward g nd inputs).1 v))).1
    ∧ (Net.forward net g nd inputs).1
      = fun v => ((g.edge_list.filter (fun e => e.2 == v)).map
          (fun e => net.gcn2.linear.apply (relu
            (((g.edge_list.filter (fun e2 => e2.2 == e.1)).map
              (fun e2 => net.gcn1.linear.apply (inputs e2.1))).sum)))).sum := by
  constructor
  · rfl
  · show (net.gcn2.forward g _ _).1 = _
    rw [gcn_forward_closed]
    simp only [gcn_forward_closed]

/-- Claim C6: the training loop runs exactly `num_epochs = 30` epochs
and each epoch appends exactly one logits matrix to `all_logits`, so
the recorded list has length 30 when the loop ends. -/
theorem train_loop_runs_thirty_epochs {P : Type} (nl : P → ℕ → Row ℝ)
    (os : P → ℝ → P) (p0 : P) :
    (train_loop nl os num_epochs ⟨p0, []⟩).all_logits.length = 30
    ∧ num_epochs = 30 := by
  refine ⟨?_, rfl⟩
  rw [train_loop_len]
  rfl

omit [LinearOrderedField K] in
/-- Claim C7: assigning a node-feature tensor whose first dimension
differs from the number of nodes raises a `DGLError` and never
succeeds (no silent truncation or padding). -/
theorem set_ndata_wrong_rows_raises (g : DGLGraph) (nd : NData K)
    (key : String) (t : Tensor2 K) (h : t.rows ≠ g.number_of_nodes) :
    set_ndata_checked g nd key t
        = Except.error "DGLError: Expect number of features to match number of nodes"
    ∧ ∀ nd2 : NData K, set_ndata_checked g nd key t ≠ Except.ok nd2 := by
  refine ⟨by simp [set_ndata_checked, h], fun nd2 => ?_⟩
  simp [set_ndata_checked, h]

/-- Claim C7, witness: a tensor of shape (35, 5) assigned on the
34-node karate graph raises the error. -/
theorem set_ndata_wrong_rows_raises_witness :
    (wrong_feat_tensor.rows ≠ karateG.number_of_nodes)
    ∧ set_ndata_checked karateG wit_nd "wrong_feat" wrong_feat_tensor
        = Except.error "DGLError: Expect number of features to match number of nodes" :=
  ⟨by decide,
    (set_ndata_wrong_rows_raises karateG wit_nd "wrong_feat"
      wrong_feat_tensor (by decide)).1⟩

/-- Claim C8: partial node-feature assignment is frame-preserving:
setting `G.nodes[idx].data[key]` rewrites exactly the rows of the
stored column listed in `idx` to the given values, leaves every row
outside `idx` unchanged, and leaves every other feature key of the
dictionary unchanged. -/
theorem set_nodes_data_frame_preserving (nd : NData K) (key : String)
    (idx : List ℕ) (vals : List (Row K)) (f : ℕ → Row K)
    (hf : nd key = some f) (hnd : idx.Nodup)
    (hlen : vals.length = idx.length) :
    (∀ k, k ≠ key → set_nodes_data nd key idx vals k = nd k)
    ∧ ∃ f2, set_nodes_data nd key idx vals key = some f2
        ∧ (∀ (p : ℕ) (hp : p < idx.length),
            f2 (idx.get ⟨p, hp⟩) = vals.get ⟨p, by omega⟩)
        ∧ (∀ v, v ∉ idx → f2 v = f v) := by
  refine ⟨fun k hk => by simp [set_nodes_data, hk], ?_⟩
  refine ⟨scatter_rows ((nd key).getD (fun _ _ => 0)) idx vals,
    by simp [set_nodes_data], fun p hp => ?_, fun v hv => ?_⟩
  · exact scatter_rows_get _ _ _ hnd hlen p hp
  · rw [scatter_rows_not_mem _ _ _ _ hv, hf]
    rfl

/-- Claim C8, witness: rewriting rows 2 and 3 of the "feat" column
with all-one rows leaves every other key of the dictionary unchanged. -/
theorem set_nodes_data_frame_preserving_witness :
    (wit_feat_nd "feat" = some (fun _ _ => (0 : ℚ)))
    ∧ ([2, 3] : List ℕ).Nodup
    ∧ wit_vals.length = ([2, 3] : List ℕ).length
    ∧ (∀ k, k ≠ "feat" →
        set_nodes_data wit_feat_nd "feat" [2, 3] wit_vals k
          = wit_feat_nd k) :=
  ⟨rfl, by decide, rfl,
    (set_nodes_data_frame_preserving wit_feat_nd "feat" [2, 3] wit_vals
      (fun _ _ => 0) rfl (by decide) rfl).1⟩

/-- Claim C9: after initializing the edge feature broness to all ones
and halving it on the edges selected by
`G.edges[G.predecessors(0), 0]`, every edge whose destination is node
0 carries exactly 1/2 and every other edge carries exactly 1. -/
theorem broness_halved_exactly_on_edges_into_node_zero (g : DGLGraph) :
    (List.range g.number_of_edges).map (broness_after g)
      = g.edge_list.map (fun e => if e.2 = 0 then (1 : ℚ) / 2 else 1) := by
  apply List.ext_getElem
  · simp [DGLGraph.number_of_edges]
  intro i h1 h2
  simp only [List.getElem_map, List.getElem_range]
  have hlen : i < g.edge_list.length := by simpa using h2
  have hget : g.edge_list.get ⟨i, hlen⟩ = g.edge_list[i] := rfl
  by_cases hd : (g.edge_list[i]).2 = 0
  · have hm : i ∈ edge_ids_to g (g.predecessors 0) 0 :=
      (mem_edge_ids_to_zero g i hlen).mpr (by rw [hget]; exact hd)
    simp [broness_after, broness_init, hm, hd]
  · have hm : i ∉ edge_ids_to g (g.predecessors 0) 0 := by
      intro hmem
      exact hd (by rw [← hget]; exact (mem_edge_ids_to_zero g i hlen).mp hmem)
    simp [broness_after, broness_init, hm, hd]

/-- Claim C10: `GCN.forward` stores the transformed features under the
key "h" and pops that key before returning: afterwards the dictionary
holds no key "h"; if the dictionary held no key "h" before the call it
is returned exactly unchanged; and a repeated forward call on the
dictionary left by a first call leaves it exactly as it was. -/
theorem gcn_forward_pops_h_and_preserves_ndata (layer : GCN K)
    (g : DGLGraph) (nd : NData K) (inputs inputs2 : ℕ → Row K) :
    (GCN.forward layer g nd inputs).2 "h" = none
    ∧ (nd "h" = none → (GCN.forward layer g nd inputs).2 = nd)
    ∧ (GCN.forward layer g ((GCN.forward layer g nd inputs).2) inputs2).2
        = (GCN.forward layer g nd inputs).2 := by
  rw [gcn_forward_ndata, gcn_forward_ndata]
  refine ⟨by simp, fun h => ?_, ?_⟩
  · funext k
    by_cases hk : k = "h" <;> simp [hk, h]
  · funext k
    by_cases hk : k = "h" <;> simp [hk]

/-- Claim C10, witness: the forward pass on the empty dictionary
returns it exactly unchanged. -/
theorem gcn_forward_pops_h_and_preserves_ndata_witness :
    (wit_nd "h" = none)
    ∧ (GCN.forward wit_layer karateG wit_nd (fun _ _ => 0)).2 = wit_nd :=
  ⟨rfl,
    (gcn_forward_pops_h_and_preserves_ndata wit_layer karateG wit_nd
      (fun _ _ => 0) (fun _ _ => 0)).2.1 rfl⟩

end KarateTutorial
